import Mathlib

/-!
Verification development for the `speech-service` streaming pipeline.

The definitions below are a shallow embedding of the Python sources under
`app/`: the session manager and WebSocket ingress handler
(`app/handlers/websocket_handler.py`), the event bus and publisher mixin
(`app/events.py`), the three workers (`app/workers/vad.py`, `asr.py`,
`diarization.py`), the result aggregator
(`app/aggregators/result_aggregator.py`) and the payload validator of
`app/models/audio.py`.  Stateful Python methods become explicit
state-passing functions; `asyncio` coroutines that run to completion
without interleaving are translated as straight-line functions; machine
floats that only carry through values (confidences, durations) are
modelled as rationals; wall-clock instants are `Nat` seconds passed in
explicitly.
-/

namespace SpeechService

/-- The three analyzer kinds, as in the `component` field of
`ProcessingResultModel` (`app/models/audio.py`). -/
inductive Component where
  | vad
  | asr
  | diarization
deriving DecidableEq, Repr

/-- JSON-like values used for component result payloads (Python dicts built
in the workers).  Numbers are modelled as rationals. -/
inductive JVal where
  | s (v : String)
  | b (v : Bool)
  | q (v : Rat)
  | arr (elems : List JVal)
  | obj (fields : List (String × JVal))
  | null

/-- A result payload: a Python dict from field name to value. -/
abbrev JDict := List (String × JVal)

/-- The keys of a payload dict. -/
def JDict.keys (d : JDict) : List String := d.map Prod.fst

/-- Embeds `Event` dataclass of `app/interfaces/events.py`: `name`, `data`,
`source`, `correlation_id` (optional, defaulting to `None`).  The payload
type is a parameter because each topic carries its own shape. -/
structure Event (α : Type) where
  name : String
  data : α
  source : String
  correlationId : Option String := none

/-! ## Session manager (`app/handlers/websocket_handler.py`, `SessionManager`) -/

/-- One session record, with the fields of the dict created by
`SessionManager.create_session` that the pipeline reads and writes
(timestamps are omitted: no control flow depends on them). -/
structure SessionRec where
  chunkCounter : Nat
  totalChunks : Nat
  totalAudioBytes : Nat
  statusActive : Bool
deriving DecidableEq, Repr

/-- The session table `self.sessions : Dict[str, ...]`, as an association
list in insertion order. -/
abbrev SMState := List (String × SessionRec)

/-- Embeds `SessionManager.create_session`, with the generated
`ws_session_{uuid}` identifier supplied as the `sessionId` argument:
inserts a fresh record with `chunk_counter = 0`, status active. -/
def createSession (sessionId : String) (st : SMState) : SMState :=
  st ++ [(sessionId, { chunkCounter := 0, totalChunks := 0,
                       totalAudioBytes := 0, statusActive := true })]

/-- In-place update of the record stored under one key, as Python's
`self.sessions[session_id][...] = ...` mutates a single dict entry. -/
def smUpdate (sessionId : String) (f : SessionRec → SessionRec) :
    SMState → SMState
  | [] => []
  | kv :: rest =>
      if kv.1 = sessionId then (kv.1, f kv.2) :: rest
      else kv :: smUpdate sessionId f rest

/-- Embeds `SessionManager.get_next_chunk_id`: raises `SessionManagerError` for an
unknown session; otherwise returns the current `chunk_counter` and
increments it together with `total_chunks`. -/
def getNextChunkId (sessionId : String) (st : SMState) :
    Except String (Nat × SMState) :=
  match st.lookup sessionId with
  | none => .error ("Session " ++ sessionId ++ " not found")
  | some rec =>
      .ok (rec.chunkCounter,
           smUpdate sessionId
             (fun r => { r with chunkCounter := r.chunkCounter + 1,
                                totalChunks := r.totalChunks + 1 }) st)

/-- Embeds `n` successive `get_next_chunk_id` calls for one session, collecting
the returned ids; fails as soon as one call fails. -/
def nextChunkIds (sessionId : String) (st : SMState) :
    Nat → Except String (List Nat × SMState)
  | 0 => .ok ([], st)
  | n + 1 =>
      match getNextChunkId sessionId st with
      | .error e => .error e
      | .ok (id, st') =>
          match nextChunkIds sessionId st' n with
          | .error e => .error e
          | .ok (ids, st'') => .ok (id :: ids, st'')

/-! ## Worker admission control
(`VADWorker._handle_audio_chunk`, `DiarizationWorker._handle_speech_detected`,
`ASRWorker._handle_speech_detected`) -/

/-- The worker-side state read by the admission check: the `is_running`
flag, the size of `self.processing_tasks`, and
`self.max_concurrent_tasks`. -/
structure WorkerState where
  isRunning : Bool
  processingTasks : Nat
  maxConcurrentTasks : Nat
deriving DecidableEq, Repr

/-- Admission logic of `VADWorker._handle_audio_chunk` (identical in
`DiarizationWorker._handle_speech_detected`): drop when not running, drop
when `len(processing_tasks) >= max_concurrent_tasks`, otherwise spawn a
task.  Returns the new state and whether the event was admitted. -/
def handleIncomingChunk (st : WorkerState) : WorkerState × Bool :=
  if ¬ st.isRunning then (st, false)
  else if st.processingTasks ≥ st.maxConcurrentTasks then (st, false)
  else ({ st with processingTasks := st.processingTasks + 1 }, true)

/-- Admission logic of `ASRWorker._handle_speech_detected`: same capacity
check, but with no `is_running` guard. -/
def asrHandleIncoming (st : WorkerState) : WorkerState × Bool :=
  if st.processingTasks ≥ st.maxConcurrentTasks then (st, false)
  else ({ st with processingTasks := st.processingTasks + 1 }, true)

/-- Observable worker transitions: an input event arrives, or a spawned
processing task finishes (its done-callback discards it from
`processing_tasks`). -/
inductive WorkerEvent where
  | arrive
  | taskDone
deriving DecidableEq, Repr

/-- One transition of the VAD/diarization worker admission state. -/
def workerStep (st : WorkerState) : WorkerEvent → WorkerState
  | .arrive => (handleIncomingChunk st).1
  | .taskDone => { st with processingTasks := st.processingTasks - 1 }

/-- One transition of the ASR worker admission state. -/
def asrWorkerStep (st : WorkerState) : WorkerEvent → WorkerState
  | .arrive => (asrHandleIncoming st).1
  | .taskDone => { st with processingTasks := st.processingTasks - 1 }

/-- A run of the VAD/diarization worker over a sequence of transitions. -/
def workerRun (st : WorkerState) : List WorkerEvent → WorkerState
  | [] => st
  | e :: es => workerRun (workerStep st e) es

/-- A run of the ASR worker over a sequence of transitions. -/
def asrWorkerRun (st : WorkerState) : List WorkerEvent → WorkerState
  | [] => st
  | e :: es => asrWorkerRun (asrWorkerStep st e) es

/-! ## Event publisher mixin (`app/events.py`, `EventPublisherMixin`) -/

/-- Embeds `EventPublisherMixin.publish_event`: when `correlation_id` is `None` a
fresh `uuid.uuid4()` string is substituted; `freshUuid` stands for that
generated value.  The resulting event always carries `some` correlation
id. -/
def publishEventMixin {α : Type} (sourceName eventName : String) (data : α)
    (correlationId : Option String) (freshUuid : String) : Event α :=
  { name := eventName, data := data, source := sourceName,
    correlationId := some (correlationId.getD freshUuid) }

/-! ## Worker failure payloads and the payload validator -/

/-- The error payload built by `VADWorker._handle_processing_error`
(`app/workers/vad.py` lines 300-304): `is_speech`, `confidence` and
`error` only. -/
def vadErrorResult (errorMessage : String) : JDict :=
  [("is_speech", .b false), ("confidence", .q 0), ("error", .s errorMessage)]

/-- The error payload built by `ASRWorker.process_chunk` on an analyzer
exception (`app/workers/asr.py` lines 189-195); the timeout branch
(lines 328-334) builds the same dict with message `"Processing timeout"`. -/
def asrErrorResult (errorMessage : String) : JDict :=
  [("text", .s ""), ("confidence", .q 0), ("segments", .arr []),
   ("language", .s "unknown"), ("error", .s errorMessage)]

/-- The error payload built by
`DiarizationWorker._handle_processing_error` (`app/workers/diarization.py`
lines 285-289). -/
def diarizationErrorResult (errorMessage : String) : JDict :=
  [("speakers", .arr []), ("segments", .arr []), ("error", .s errorMessage)]

/-- The per-component required keys of
`ProcessingResultModel.validate_result_structure`
(`app/models/audio.py` lines 167-190). -/
def requiredFields : Component → List String
  | .vad => ["is_speech", "confidence"]
  | .asr => ["text", "confidence"]
  | .diarization => ["speakers", "segments"]

/-- Embeds `validate_result_structure`: the result dict must contain every
required key for its component. -/
def validateResultStructure (component : Component) (result : JDict) : Bool :=
  (requiredFields component).all (fun f => result.keys.contains f)

/-! ## Event bus publish (`app/events.py`, `AsyncEventBus.publish`) -/

/-- The suspension-relevant actions performed by `AsyncEventBus.publish`,
in program order: append the event to the bounded history (under the
lock), snapshot the subscriber set, create one `asyncio` task per handler,
and `await asyncio.gather(*tasks)` on all of the created tasks. -/
inductive PubAction (H : Type) where
  | appendHistory
  | snapshotSubscribers
  | createTask (handler : H)
  | awaitAllTasks (count : Nat)
deriving DecidableEq, Repr

/-- Straight-line trace of the body of `AsyncEventBus.publish` for a
snapshot `subs` of the topic's subscribers (`app/events.py` lines
45-117): history append and snapshot under the lock; early return when
there are no subscribers; otherwise one `create_task` per handler followed
by `await asyncio.gather(*tasks)` over all of them before the function
returns. -/
def publishTrace {H : Type} (subs : List H) : List (PubAction H) :=
  [.appendHistory, .snapshotSubscribers] ++
    (if subs.isEmpty then []
     else subs.map .createTask ++ [.awaitAllTasks subs.length])

/-! ## Result aggregator (`app/aggregators/result_aggregator.py`)

The aggregator is generic in the type `R` of stored component results: the
Python code stores the inbound event's `data` dict opaquely and only reads
`session_id` and `chunk_id` from it, which are passed separately here. -/

/-- Embeds `ChunkAggregationState` (dataclass): per-chunk aggregation entry.
`completedComponents` models the Python set as an insertion-ordered
duplicate-free list. -/
structure ChunkAggregationState (R : Type) where
  sessionId : String
  chunkId : Nat
  createdAt : Nat
  timeoutSeconds : Nat
  vadResult : Option R := none
  asrResult : Option R := none
  diarizationResult : Option R := none
  completedComponents : List Component := []
deriving DecidableEq, Repr

/-- Embeds `expected_components`: always `{vad, asr, diarization}`. -/
def expectedComponents : List Component := [.vad, .asr, .diarization]

/-- Embeds `ChunkAggregationState.add_result`: store the result under its
component slot and add the component to the completed set. -/
def ChunkAggregationState.addResult {R : Type}
    (st : ChunkAggregationState R) (c : Component) (r : R) :
    ChunkAggregationState R :=
  let st' :=
    match c with
    | .vad => { st with vadResult := some r }
    | .asr => { st with asrResult := some r }
    | .diarization => { st with diarizationResult := some r }
  if c ∈ st'.completedComponents then st'
  else { st' with completedComponents := st'.completedComponents ++ [c] }

/-- The stored result for one component slot. -/
def ChunkAggregationState.resultFor {R : Type}
    (st : ChunkAggregationState R) : Component → Option R
  | .vad => st.vadResult
  | .asr => st.asrResult
  | .diarization => st.diarizationResult

/-- Embeds `ChunkAggregationState.is_complete`:
`completed_components >= expected_components` (set inclusion). -/
def ChunkAggregationState.isComplete {R : Type}
    (st : ChunkAggregationState R) : Bool :=
  expectedComponents.all (fun c => decide (c ∈ st.completedComponents))

/-- Embeds `ChunkAggregationState.is_expired`:
`time.time() - created_at > timeout_seconds` (the clock never runs
backwards, so truncated subtraction agrees with the Python float
subtraction). -/
def ChunkAggregationState.isExpired {R : Type}
    (st : ChunkAggregationState R) (now : Nat) : Bool :=
  now - st.createdAt > st.timeoutSeconds

/-- Embeds `ChunkAggregationState.get_missing_components`:
`expected_components - completed_components`. -/
def ChunkAggregationState.missingComponents {R : Type}
    (st : ChunkAggregationState R) : List Component :=
  expectedComponents.filter (fun c => decide (c ∉ st.completedComponents))

/-- The payload of a `chunk_complete` event, as assembled by
`ResultAggregator._publish_chunk_complete` (lines 250-268). -/
structure AggOutput (R : Type) where
  sessionId : String
  chunkId : Nat
  aggregationTimeMs : Nat
  completedComponents : List Component
  missingComponents : List Component
  isComplete : Bool
  isTimeout : Bool
  vadResult : Option R
  asrResult : Option R
  diarizationResult : Option R
deriving DecidableEq, Repr

/-- Aggregator state: the `chunk_states` dict (an association list in
insertion order, keyed by `f"{session_id}_{chunk_id}"`), the counters of
`self.stats` that the control flow writes, and `is_running`.  The derived
float `average_aggregation_time_ms` is display-only and not modelled. -/
structure AggState (R : Type) where
  aggregationTimeout : Nat
  chunkStates : List (String × ChunkAggregationState R) := []
  statsProcessed : Nat := 0
  statsCompleted : Nat := 0
  statsTimedOut : Nat := 0
  statsPartial : Nat := 0
  isRunning : Bool := true
deriving DecidableEq, Repr

/-- A fresh aggregator, as built by `ResultAggregator.__init__` followed
by `start()`. -/
def initAggState (R : Type) (aggregationTimeout : Nat) : AggState R :=
  { aggregationTimeout := aggregationTimeout }

/-- Embeds `chunk_key = f"{session_id}_{chunk_id}"`; the same format is used for
pipeline correlation ids. -/
def chunkKey (sessionId : String) (chunkId : Nat) : String :=
  sessionId ++ "_" ++ toString chunkId

/-- Embeds `del dict[key]` on the association list. -/
def deleteKey {α : Type} (k : String) (m : List (String × α)) :
    List (String × α) :=
  m.filter (fun kv => kv.1 != k)

/-- In-place mutation of the entry object stored under `k` (Python holds a
reference into the dict, so `add_result` updates the stored entry). -/
def updateKey {α : Type} (k : String) (v : α) (m : List (String × α)) :
    List (String × α) :=
  m.map (fun kv => if kv.1 = k then (k, v) else kv)

/-- The event payload built by `_publish_chunk_complete` from one entry. -/
def mkAggOutput {R : Type} (now : Nat) (isTimeout : Bool)
    (e : ChunkAggregationState R) : AggOutput R :=
  { sessionId := e.sessionId
    chunkId := e.chunkId
    aggregationTimeMs := (now - e.createdAt) * 1000
    completedComponents := e.completedComponents
    missingComponents := e.missingComponents
    isComplete := e.isComplete
    isTimeout := isTimeout
    vadResult := e.vadResult
    asrResult := e.asrResult
    diarizationResult := e.diarizationResult }

/-- Embeds `ResultAggregator._publish_chunk_complete`: build the aggregated
payload, update the `completed`/`timed_out`/`partial` counter, and delete
the entry from `chunk_states`. -/
def publishChunkComplete {R : Type} (key : String)
    (e : ChunkAggregationState R) (isTimeout : Bool) (now : Nat)
    (st : AggState R) : AggState R × AggOutput R :=
  let out := mkAggOutput now isTimeout e
  let st' :=
    if e.isComplete then { st with statsCompleted := st.statsCompleted + 1 }
    else if isTimeout then { st with statsTimedOut := st.statsTimedOut + 1 }
    else { st with statsPartial := st.statsPartial + 1 }
  ({ st' with chunkStates := deleteKey key st'.chunkStates }, out)

/-- The entry created on first sight of a (session, chunk) pair
(`created_at = now`, `timeout_seconds` from the aggregator's
configuration, nothing received yet). -/
def freshEntry (R : Type) (sessionId : String) (chunkId now timeout : Nat) :
    ChunkAggregationState R :=
  { sessionId := sessionId, chunkId := chunkId, createdAt := now,
    timeoutSeconds := timeout }

/-- Embeds `ResultAggregator._handle_component_completed`: guard against falsy
`session_id`; get or create the entry (creation bumps
`chunks_processed`); record the result; close and publish when all
expected components are present.  Returns the published `chunk_complete`
payloads (`[]` or a singleton). -/
def handleComponentCompleted {R : Type} (comp : Component)
    (sessionId : String) (chunkId : Nat) (res : R) (now : Nat)
    (st : AggState R) : AggState R × List (AggOutput R) :=
  if sessionId = "" then (st, [])
  else
    let key := chunkKey sessionId chunkId
    match st.chunkStates.lookup key with
    | some e =>
        let e' := e.addResult comp res
        let st' := { st with chunkStates := updateKey key e' st.chunkStates }
        if e'.isComplete then
          let r := publishChunkComplete key e' false now st'
          (r.1, [r.2])
        else (st', [])
    | none =>
        let e' := (freshEntry R sessionId chunkId now
          st.aggregationTimeout).addResult comp res
        let st' := { st with
          chunkStates := st.chunkStates ++ [(key, e')],
          statsProcessed := st.statsProcessed + 1 }
        if e'.isComplete then
          let r := publishChunkComplete key e' false now st'
          (r.1, [r.2])
        else (st', [])

/-- One inbound component-result event as seen by the aggregator's
handlers (`vad_completed` / `asr_completed` / `diarization_completed`). -/
structure InEvent (R : Type) where
  comp : Component
  sessionId : String
  chunkId : Nat
  res : R
  now : Nat
deriving DecidableEq, Repr

/-- Process a sequence of inbound result events, concatenating the
published `chunk_complete` payloads. -/
def runAggEvents {R : Type} :
    List (InEvent R) → AggState R → AggState R × List (AggOutput R)
  | [], st => (st, [])
  | e :: es, st =>
      let r₁ :=
        handleComponentCompleted e.comp e.sessionId e.chunkId e.res e.now st
      let r₂ := runAggEvents es r₁.1
      (r₂.1, r₁.2 ++ r₂.2)

/-- Close-and-publish a list of entries in order (the loop bodies of
`_cleanup_expired_chunks` and `_flush_remaining_chunks`, both of which
iterate over a snapshot of `chunk_states.items()`). -/
def flushEntries {R : Type} (isTimeout : Bool) (now : Nat) :
    List (String × ChunkAggregationState R) → AggState R →
    AggState R × List (AggOutput R)
  | [], st => (st, [])
  | kv :: rest, st =>
      let r₁ := publishChunkComplete kv.1 kv.2 isTimeout now st
      let r₂ := flushEntries isTimeout now rest r₁.1
      (r₂.1, r₁.2 :: r₂.2)

/-- One sweep of `_cleanup_expired_chunks`: snapshot the expired entries,
then close each with `is_timeout = True`. -/
def cleanupExpiredTick {R : Type} (now : Nat) (st : AggState R) :
    AggState R × List (AggOutput R) :=
  flushEntries true now (st.chunkStates.filter (fun kv => kv.2.isExpired now)) st

/-- Embeds `ResultAggregator._flush_remaining_chunks`: close every remaining
entry with `is_timeout = False`. -/
def flushRemainingChunks {R : Type} (now : Nat) (st : AggState R) :
    AggState R × List (AggOutput R) :=
  flushEntries false now st.chunkStates st

/-- Embeds `ResultAggregator.stop`: no-op when not running; otherwise leave the
running state, cancel the sweeper, and flush the remaining chunks as
partial results. -/
def aggStop {R : Type} (now : Nat) (st : AggState R) :
    AggState R × List (AggOutput R) :=
  if ¬ st.isRunning then (st, [])
  else flushRemainingChunks now { st with isRunning := false }

/-! ## Worker result publication
(`VADWorker._process_audio_chunk` / `_publish_results` /
`_handle_processing_error`, `ASRWorker._process_speech_with_cleanup` /
`process_chunk`, `DiarizationWorker._process_speech_chunk` /
`_handle_processing_error`) -/

/-- Embeds `ProcessingResultModel` (`app/models/audio.py`) as carried in
`*_completed` event payloads. -/
structure ProcResult where
  sessionId : String
  chunkId : Nat
  component : Component
  result : JDict
  processingTimeMs : Rat
  success : Bool
  error : Option String := none

/-- The payloads flowing on the pipeline's topics. -/
inductive Payload where
  | audioChunk (sessionId : String) (chunkId : Nat) (dataLen : Nat)
      (sampleRate : Nat) (channels : Nat)
  | procResult (r : ProcResult)
  | speechDetected (sessionId : String) (chunkId : Nat) (dataLen : Nat)
      (sampleRate : Nat) (vadConfidence : Rat)
  | chunkComplete (out : AggOutput ProcResult)

/-- Embeds `dict.get(key, False)` on a payload whose stored value is a boolean
(the analyzer services return `bool` here). -/
def jGetBool (d : JDict) (k : String) : Bool :=
  match d.lookup k with
  | some (.b b) => b
  | _ => false

/-- Embeds `dict.get(key, 0.0)` on a payload whose stored value is a number. -/
def jGetNum (d : JDict) (k : String) : Rat :=
  match d.lookup k with
  | some (.q v) => v
  | _ => 0

/-- Outcome of one `analyzer.process(...)` call as observed by the worker:
the returned dict, a raised exception's message, or
`asyncio.TimeoutError` from `asyncio.wait_for`. -/
inductive AnalyzerOutcome where
  | success (d : JDict)
  | failure (message : String)
  | timeout

/-- The `vad_completed` event built by
`VADWorker._handle_processing_error` (lines 296-317): error payload with
safe defaults and `correlation_id = None`. -/
def vadErrorEvent (sessionId : String) (chunkId : Nat)
    (errorMessage : String) (processingMs : Rat) : Event Payload :=
  { name := "vad_completed"
    data := .procResult
      { sessionId := sessionId, chunkId := chunkId, component := .vad,
        result := vadErrorResult errorMessage,
        processingTimeMs := processingMs, success := false }
    source := "vad_worker"
    correlationId := none }

/-- Events published by `VADWorker._process_audio_chunk` for one admitted
chunk: on success always `vad_completed`, plus `speech_detected` when the
service reported `is_speech`; on an exception or a timeout, the error
result via `_handle_processing_error`. -/
def vadProcessAudioChunk (sessionId : String) (chunkId : Nat)
    (dataLen sampleRate : Nat) (outcome : AnalyzerOutcome)
    (processingMs : Rat) (corr : Option String) : List (Event Payload) :=
  match outcome with
  | .success d =>
      { name := "vad_completed"
        data := .procResult
          { sessionId := sessionId, chunkId := chunkId, component := .vad,
            result := d, processingTimeMs := processingMs, success := true }
        source := "vad_worker"
        correlationId := corr } ::
      (if jGetBool d "is_speech" then
        [{ name := "speech_detected"
           data := .speechDetected sessionId chunkId dataLen sampleRate
             (jGetNum d "confidence")
           source := "vad_worker"
           correlationId := corr }]
       else [])
  | .failure msg => [vadErrorEvent sessionId chunkId msg processingMs]
  | .timeout =>
      [vadErrorEvent sessionId chunkId "Processing timeout" processingMs]

/-- Events published by `ASRWorker._process_speech_with_cleanup` for one
admitted chunk: all three outcomes publish one `asr_completed` through
`publish_event` (an analyzer exception is converted by `process_chunk`
into an error result that is still published); timeouts use the
`chunk_timeout * 1000` processing time. -/
def asrProcessSpeech (sessionId : String) (chunkId : Nat)
    (outcome : AnalyzerOutcome) (processingMs chunkTimeout : Rat)
    (corr : Option String) (freshUuid : String) : List (Event Payload) :=
  match outcome with
  | .success d =>
      [publishEventMixin "asr_worker" "asr_completed"
        (.procResult
          { sessionId := sessionId, chunkId := chunkId, component := .asr,
            result := d, processingTimeMs := processingMs, success := true })
        corr freshUuid]
  | .failure msg =>
      [publishEventMixin "asr_worker" "asr_completed"
        (.procResult
          { sessionId := sessionId, chunkId := chunkId, component := .asr,
            result := asrErrorResult msg, processingTimeMs := processingMs,
            success := false, error := some msg })
        corr freshUuid]
  | .timeout =>
      [publishEventMixin "asr_worker" "asr_completed"
        (.procResult
          { sessionId := sessionId, chunkId := chunkId, component := .asr,
            result := asrErrorResult "Processing timeout",
            processingTimeMs := chunkTimeout * 1000,
            success := false, error := some "Processing timeout" })
        corr freshUuid]

/-- Events published by `DiarizationWorker._process_speech_chunk` for one
admitted chunk: success publishes `diarization_completed` with the
event's correlation id; exceptions and timeouts publish the error result
with `correlation_id = None`. -/
def diarizationProcessSpeechChunk (sessionId : String) (chunkId : Nat)
    (outcome : AnalyzerOutcome) (processingMs : Rat)
    (corr : Option String) : List (Event Payload) :=
  match outcome with
  | .success d =>
      [{ name := "diarization_completed"
         data := .procResult
           { sessionId := sessionId, chunkId := chunkId,
             component := .diarization, result := d,
             processingTimeMs := processingMs, success := true }
         source := "diarization_worker"
         correlationId := corr }]
  | .failure msg =>
      [{ name := "diarization_completed"
         data := .procResult
           { sessionId := sessionId, chunkId := chunkId,
             component := .diarization,
             result := diarizationErrorResult msg,
             processingTimeMs := processingMs, success := false }
         source := "diarization_worker"
         correlationId := none }]
  | .timeout =>
      [{ name := "diarization_completed"
         data := .procResult
           { sessionId := sessionId, chunkId := chunkId,
             component := .diarization,
             result := diarizationErrorResult "Processing timeout",
             processingTimeMs := processingMs, success := false }
         source := "diarization_worker"
         correlationId := none }]

/-! ## Ingress (`app/handlers/websocket_handler.py`, `WebSocketHandler`) -/

/-- Messages sent to the client over the WebSocket. -/
inductive ClientMsg where
  | connectionEstablished (sessionId : String)
  | chunkReceived (chunkId size : Nat)
  | errorMsg (message : String)
  | pong
  | processingComplete (out : AggOutput ProcResult)

/-- Embeds `WebSocketHandler.handle_audio_data` (lines 344-424): a zero-length
frame returns silently; an oversized frame gets an error message and no
bus event; otherwise allocate the chunk id, update the session byte
counter, publish `audio_chunk_received` with correlation
`f"{session_id}_{chunk_id}"` and acknowledge with `chunk_received`.  An
exception from `get_next_chunk_id` (unknown session) is caught and turned
into an error message. -/
def handleAudioData (maxAudioChunkSize : Nat) (sessionId : String)
    (dataLen : Nat) (sm : SMState) :
    SMState × List ClientMsg × List (Event Payload) :=
  if dataLen = 0 then (sm, [], [])
  else if dataLen > maxAudioChunkSize then
    (sm, [.errorMsg ("Audio chunk too large: " ++ toString dataLen ++
        " bytes (max: " ++ toString maxAudioChunkSize ++ ")")], [])
  else
    match getNextChunkId sessionId sm with
    | .error e => (sm, [.errorMsg ("Failed to process audio data: " ++ e)], [])
    | .ok (chunkId, sm') =>
        let sm'' := smUpdate sessionId
          (fun r => { r with totalAudioBytes := r.totalAudioBytes + dataLen })
          sm'
        (sm'', [.chunkReceived chunkId dataLen],
         [{ name := "audio_chunk_received"
            data := .audioChunk sessionId chunkId dataLen 16000 1
            source := "websocket_handler"
            correlationId := some (chunkKey sessionId chunkId) }])

/-- Embeds `WebSocketHandler._handle_chunk_complete`: when the session still has
a connection, forward the aggregated payload as a `processing_complete`
message; otherwise drop it. -/
def handleChunkComplete (connected : Bool) (out : AggOutput ProcResult) :
    List ClientMsg :=
  if connected then [.processingComplete out] else []

/-! ## Single-chunk pipeline composition (for the end-to-end scenarios) -/

/-- Embeds `MockVADService.detect_speech` (`app/services/vad_service.py` lines
307-341): speech iff more than 1024 bytes; confidence
`min(0.9, len/10000)`; one full-length segment when speech. -/
def mockVadDetectSpeech (dataLen sampleRate : Nat) : JDict :=
  let isSpeech := decide (dataLen > 1024)
  let confidence := min ((9 : Rat)/10) ((dataLen : Rat) / 10000)
  let duration := (dataLen : Rat) / ((sampleRate : Rat) * 2)
  [("is_speech", .b isSpeech), ("confidence", .q confidence),
   ("speech_segments",
    .arr (if isSpeech then [.arr [.q 0, .q duration]] else [])),
   ("frame_count", .q 1), ("audio_duration", .q duration)]

/-- Which aggregator handler a topic is routed to
(`ResultAggregator.start` subscribes to exactly these three). -/
def aggComponentOfTopic (name : String) : Option Component :=
  if name = "vad_completed" then some .vad
  else if name = "asr_completed" then some .asr
  else if name = "diarization_completed" then some .diarization
  else none

/-- Feed a list of worker events through the aggregator's subscriptions:
`*_completed` events reach `_handle_component_completed` with the
component of their topic and the `session_id` / `chunk_id` of their
payload; other topics are not subscribed. -/
def aggregateWorkerEvents (now : Nat) :
    List (Event Payload) → AggState ProcResult →
    AggState ProcResult × List (AggOutput ProcResult)
  | [], st => (st, [])
  | ev :: evs, st =>
      let r₁ :=
        match aggComponentOfTopic ev.name, ev.data with
        | some c, .procResult pr =>
            handleComponentCompleted c pr.sessionId pr.chunkId pr now st
        | _, _ => (st, [])
      let r₂ := aggregateWorkerEvents now evs r₁.1
      (r₂.1, r₁.2 ++ r₂.2)

/-- Result of driving one audio frame through the wired pipeline. -/
structure PipelineResult where
  clientMsgs : List ClientMsg
  workerEvents : List (Event Payload)
  aggOutputs : List (AggOutput ProcResult)
  aggState : AggState ProcResult

/-- One frame through the pipeline as wired by `app/container.py`: the
ingress publishes `audio_chunk_received`; only the VAD worker subscribes
to it; ASR and diarization subscribe to `speech_detected`, which VAD
publishes only on `is_speech`; the aggregator consumes the `*_completed`
topics at time `0` and a sweeper tick later runs at `sweepNow`; the
completions are forwarded to the (still connected) client.  The analyzer
services run the deterministic mocks (VAD thresholds on length; ASR and
diarization succeed with `asrDict` / `diarDict`). -/
def runOneChunkPipeline (maxChunk dataLen : Nat) (sessionId : String)
    (asrDict diarDict : JDict) (aggregationTimeout sweepNow : Nat) :
    PipelineResult :=
  let sm0 := createSession sessionId []
  let (_, msgs1, pubEvs) := handleAudioData maxChunk sessionId dataLen sm0
  let vadEvs := pubEvs.flatMap (fun ev =>
    match ev.name == "audio_chunk_received", ev.data with
    | true, .audioChunk s c len rate _ =>
        vadProcessAudioChunk s c len rate
          (.success (mockVadDetectSpeech len rate)) 1 ev.correlationId
    | _, _ => [])
  let gatedEvs := vadEvs.flatMap (fun ev =>
    match ev.name == "speech_detected", ev.data with
    | true, .speechDetected s c _ _ _ =>
        asrProcessSpeech s c (.success asrDict) 1 30 ev.correlationId "uuid" ++
        diarizationProcessSpeechChunk s c (.success diarDict) 1 ev.correlationId
    | _, _ => [])
  let workerEvs := vadEvs ++ gatedEvs
  let (agg1, outs1) :=
    aggregateWorkerEvents 0 workerEvs (initAggState ProcResult aggregationTimeout)
  let (agg2, outs2) := cleanupExpiredTick sweepNow agg1
  { clientMsgs := msgs1 ++ (outs1 ++ outs2).flatMap (handleChunkComplete true)
    workerEvents := workerEvs
    aggOutputs := outs1 ++ outs2
    aggState := agg2 }

end SpeechService

namespace SpeechService

lemma lookup_smUpdate (sessionId : String) (f : SessionRec → SessionRec) :
    ∀ st : SMState,
      (smUpdate sessionId f st).lookup sessionId =
        (st.lookup sessionId).map f := by
  intro st
  induction st with
  | nil => simp [smUpdate]
  | cons kv rest ih =>
      by_cases hk : kv.1 = sessionId
      · simp [smUpdate, hk, List.lookup]
      · have hk' : (sessionId == kv.1) = false := by
          simp [beq_iff_eq]; exact fun h' => hk h'.symm
        simp [smUpdate, hk, List.lookup, hk', ih]

lemma nextChunkIds_from (sessionId : String) (n : Nat) :
    ∀ (st : SMState) (rec : SessionRec),
      st.lookup sessionId = some rec →
      ∃ st' rec',
        nextChunkIds sessionId st n =
          .ok (List.range' rec.chunkCounter n, st') ∧
        st'.lookup sessionId = some rec' ∧
        rec'.chunkCounter = rec.chunkCounter + n := by
  induction n with
  | zero =>
      intro st rec h
      exact ⟨st, rec, by simp [nextChunkIds, List.range'], h, by simp⟩
  | succ n ih =>
      intro st rec h
      have hstep : getNextChunkId sessionId st =
          .ok (rec.chunkCounter,
               smUpdate sessionId
                 (fun r => { r with chunkCounter := r.chunkCounter + 1,
                                    totalChunks := r.totalChunks + 1 }) st) := by
        simp [getNextChunkId, h]
      have hlook := lookup_smUpdate sessionId
        (fun r => { r with chunkCounter := r.chunkCounter + 1,
                           totalChunks := r.totalChunks + 1 }) st
      rw [h] at hlook
      simp only [Option.map_some'] at hlook
      obtain ⟨st', rec', hrun, hlook', hcnt⟩ := ih _ _ hlook
      have hcnt' : rec'.chunkCounter = rec.chunkCounter + 1 + n := by
        simpa using hcnt
      refine ⟨st', rec', ?_, hlook', by omega⟩
      simp only [nextChunkIds, hstep, hrun]
      simp [List.range'_succ]

lemma lookup_createSession (sessionId : String) (st : SMState)
    (hfresh : st.lookup sessionId = none) :
    (createSession sessionId st).lookup sessionId =
      some { chunkCounter := 0, totalChunks := 0,
             totalAudioBytes := 0, statusActive := true } := by
  induction st with
  | nil => simp [createSession, List.lookup]
  | cons kv rest ih =>
      cases hbe : (sessionId == kv.1) with
      | true =>
          have heq : sessionId = kv.1 := by simpa [beq_iff_eq] using hbe
          simp [List.lookup, hbe] at hfresh
      | false =>
          have hrest : rest.lookup sessionId = none := by
            simpa [List.lookup, hbe] using hfresh
          simpa [createSession, List.lookup, hbe] using ih hrest

/-- C6: for a freshly created session, `n` successive `get_next_chunk_id`
calls return exactly `0, 1, …, n-1`, each call returning the counter and
incrementing it; calling with an unknown `session_id` fails with an
error.  -/
theorem next_chunk_id_monotonic_and_unknown_fails
    (sessionId : String) (st : SMState) (n : Nat)
    (hfresh : st.lookup sessionId = none) :
    (∃ st', nextChunkIds sessionId (createSession sessionId st) n =
        .ok (List.range n, st')) ∧
    (∀ rec, getNextChunkId sessionId st = .ok rec → False) := by
  constructor
  · have hlook := lookup_createSession sessionId st hfresh
    obtain ⟨st', rec', hrun, _, _⟩ :=
      nextChunkIds_from sessionId n (createSession sessionId st) _ hlook
    refine ⟨st', ?_⟩
    simpa [List.range_eq_range'] using hrun
  · intro rec hrec
    simp [getNextChunkId, hfresh] at hrec

/-- Witness for C6 at a concrete fresh table: three calls on a new session
yield `[0, 1, 2]`, and the unknown session `"s"` fails. -/
theorem next_chunk_id_monotonic_witness :
    (([] : SMState).lookup "s" = none) ∧
    ((∃ st', nextChunkIds "s" (createSession "s" []) 3 =
        .ok (List.range 3, st')) ∧
     (∀ rec, getNextChunkId "s" ([] : SMState) = .ok rec → False)) :=
  ⟨rfl, next_chunk_id_monotonic_and_unknown_fails "s" [] 3 rfl⟩

lemma workerStep_max (st : WorkerState) (e : WorkerEvent) :
    (workerStep st e).maxConcurrentTasks = st.maxConcurrentTasks := by
  cases e with
  | arrive =>
      simp only [workerStep, handleIncomingChunk]
      split_ifs <;> rfl
  | taskDone => rfl

lemma workerStep_bound (st : WorkerState) (e : WorkerEvent)
    (h : st.processingTasks ≤ st.maxConcurrentTasks) :
    (workerStep st e).processingTasks ≤ st.maxConcurrentTasks := by
  cases e with
  | arrive =>
      simp only [workerStep, handleIncomingChunk]
      split_ifs with h1 h2
      · exact h
      · simp
        omega
      · exact h
  | taskDone =>
      simp only [workerStep]
      omega

lemma asrWorkerStep_max (st : WorkerState) (e : WorkerEvent) :
    (asrWorkerStep st e).maxConcurrentTasks = st.maxConcurrentTasks := by
  cases e with
  | arrive =>
      simp only [asrWorkerStep, asrHandleIncoming]
      split_ifs <;> rfl
  | taskDone => rfl

lemma asrWorkerStep_bound (st : WorkerState) (e : WorkerEvent)
    (h : st.processingTasks ≤ st.maxConcurrentTasks) :
    (asrWorkerStep st e).processingTasks ≤ st.maxConcurrentTasks := by
  cases e with
  | arrive =>
      simp only [asrWorkerStep, asrHandleIncoming]
      split_ifs with h1
      · exact h
      · simp
        omega
  | taskDone =>
      simp only [asrWorkerStep]
      omega

lemma workerRun_bound : ∀ (evs : List WorkerEvent) (st : WorkerState),
    st.processingTasks ≤ st.maxConcurrentTasks →
    (workerRun st evs).processingTasks ≤ st.maxConcurrentTasks := by
  intro evs
  induction evs with
  | nil => intro st h; simpa [workerRun] using h
  | cons e es ih =>
      intro st h
      have h1 := workerStep_bound st e h
      have h2 := workerStep_max st e
      have := ih (workerStep st e) (by rw [h2]; exact h1)
      rw [h2] at this
      simpa [workerRun] using this

lemma asrWorkerRun_bound : ∀ (evs : List WorkerEvent) (st : WorkerState),
    st.processingTasks ≤ st.maxConcurrentTasks →
    (asrWorkerRun st evs).processingTasks ≤ st.maxConcurrentTasks := by
  intro evs
  induction evs with
  | nil => intro st h; simpa [asrWorkerRun] using h
  | cons e es ih =>
      intro st h
      have h1 := asrWorkerStep_bound st e h
      have h2 := asrWorkerStep_max st e
      have := ih (asrWorkerStep st e) (by rw [h2]; exact h1)
      rw [h2] at this
      simpa [asrWorkerRun] using this

/-- C9: a worker whose in-flight task count has reached
`max_concurrent_tasks` drops the next incoming event, leaving its state
unchanged (nothing is queued), in both the VAD/diarization and the ASR
admission paths; consequently along any sequence of arrivals and task
completions the in-flight count never exceeds `max_concurrent_tasks`. -/
theorem worker_admission_never_exceeds_max :
    (∀ st : WorkerState, st.processingTasks ≥ st.maxConcurrentTasks →
      handleIncomingChunk st = (st, false) ∧
      asrHandleIncoming st = (st, false)) ∧
    (∀ (st : WorkerState) (evs : List WorkerEvent),
      st.processingTasks ≤ st.maxConcurrentTasks →
      (workerRun st evs).processingTasks ≤ st.maxConcurrentTasks ∧
      (asrWorkerRun st evs).processingTasks ≤ st.maxConcurrentTasks) := by
  constructor
  · intro st h
    constructor
    · simp only [handleIncomingChunk]
      split_ifs
      · rfl
      · rfl
    · simp only [asrHandleIncoming]
      split_ifs
      rfl
  · intro st evs h
    exact ⟨workerRun_bound evs st h, asrWorkerRun_bound evs st h⟩

/-- Witness for C9: a saturated worker (2 of 2 tasks) drops the next
event, and a run from an empty worker stays within the cap. -/
theorem worker_admission_never_exceeds_max_witness :
    ((handleIncomingChunk ⟨true, 2, 2⟩ = (⟨true, 2, 2⟩, false) ∧
      asrHandleIncoming ⟨true, 2, 2⟩ = (⟨true, 2, 2⟩, false)) ∧
     ((workerRun ⟨true, 0, 2⟩
        [.arrive, .arrive, .arrive, .taskDone, .arrive]).processingTasks ≤ 2 ∧
      (asrWorkerRun ⟨true, 0, 2⟩
        [.arrive, .arrive, .arrive, .taskDone, .arrive]).processingTasks ≤ 2)) :=
  ⟨worker_admission_never_exceeds_max.1 ⟨true, 2, 2⟩ (by decide),
   worker_admission_never_exceeds_max.2 ⟨true, 0, 2⟩
     [.arrive, .arrive, .arrive, .taskDone, .arrive] (by decide)⟩

/-- C10 counterexample: the `vad_completed` failure event that
`VADWorker._handle_processing_error` hands to `event_bus.publish` carries
`correlation_id = None` — it does not go through `publish_event`, so no
UUID is substituted and the published event's correlation id is null. -/
theorem vad_failure_event_null_correlation_counterexample :
    (vadErrorEvent "sess" 0 "boom" 5).correlationId = none := rfl

/-- C10 (amended): `publish_event` with `correlation_id = None`
substitutes the freshly generated UUID — a value independent of the
payload, hence unrelated to the chunk's identity — and passes an explicit
correlation id through unchanged; the VAD worker's failure results,
however, are built directly as `Event(correlation_id=None)` and published
on the bus, so they carry a null correlation id. -/
theorem publish_event_uuid_substitution_and_vad_error_bypass :
    (∀ (α : Type) (src nm : String) (data : α) (fresh : String),
      (publishEventMixin src nm data none fresh).correlationId = some fresh) ∧
    (∀ (α : Type) (src nm : String) (data : α) (c fresh : String),
      (publishEventMixin src nm data (some c) fresh).correlationId = some c) ∧
    (∀ (α : Type) (src nm : String) (d₁ d₂ : α) (fresh : String),
      (publishEventMixin src nm d₁ none fresh).correlationId =
        (publishEventMixin src nm d₂ none fresh).correlationId) ∧
    (∀ (s : String) (c : Nat) (msg : String) (t : Rat),
      (vadErrorEvent s c msg t).correlationId = none) := by
  refine ⟨?_, ?_, ?_, ?_⟩ <;> intros <;> rfl

/-- C7 counterexample: the VAD failure payload has no `segments` key, so
a failure result does not carry all keys of the spec's VAD payload shape
`{is_speech, confidence, segments}`. -/
theorem vad_error_payload_missing_segments_counterexample :
    ((vadErrorResult "boom").keys.contains "segments") = false := by decide

/-- C7 (amended): every failure payload still carries the keys that
`ProcessingResultModel.validate_result_structure` requires for its kind —
for VAD `is_speech` and `confidence` (but not `segments`), for ASR
`text`, `confidence`, `segments` and `language`, for diarization
`speakers` and `segments` — together with an `error` string, and each
passes the validator. -/
theorem failure_payloads_keep_required_keys_and_error :
    (∀ msg, (vadErrorResult msg).keys = ["is_speech", "confidence", "error"] ∧
      validateResultStructure .vad (vadErrorResult msg) = true) ∧
    (∀ msg, (asrErrorResult msg).keys =
        ["text", "confidence", "segments", "language", "error"] ∧
      validateResultStructure .asr (asrErrorResult msg) = true) ∧
    (∀ msg, (diarizationErrorResult msg).keys =
        ["speakers", "segments", "error"] ∧
      validateResultStructure .diarization (diarizationErrorResult msg) = true) := by
  refine ⟨?_, ?_, ?_⟩ <;> intro msg <;> exact ⟨rfl, rfl⟩

/-- C5 counterexample: with one subscriber, the body of
`AsyncEventBus.publish` contains the `await asyncio.gather` action over
the handler task — `publish` does block until the dispatched handlers
have finished executing. -/
theorem publish_awaits_handler_completion_counterexample :
    (PubAction.awaitAllTasks 1) ∈ publishTrace [(0 : Nat)] := by decide

/-- C5 (amended): for a non-empty subscriber snapshot, `publish` records
the event in history, dispatches every handler in its own task, and then
awaits completion of all the handler tasks before returning: the await
over all `subs.length` tasks is the final action of the trace. -/
theorem publish_dispatches_each_then_awaits_gather
    {H : Type} (subs : List H) (h : subs ≠ []) :
    (∀ hd ∈ subs, PubAction.createTask hd ∈ publishTrace subs) ∧
    publishTrace subs =
      ([.appendHistory, .snapshotSubscribers] ++ subs.map .createTask) ++
        [.awaitAllTasks subs.length] := by
  have hne : subs.isEmpty = false := by
    cases subs with
    | nil => exact absurd rfl h
    | cons a l => rfl
  have h2 : publishTrace subs =
      [.appendHistory, .snapshotSubscribers] ++
        (subs.map .createTask ++ [.awaitAllTasks subs.length]) := by
    simp [publishTrace, hne]
  constructor
  · intro hd hmem
    have h1 : PubAction.createTask hd ∈ subs.map PubAction.createTask :=
      List.mem_map_of_mem _ hmem
    rw [h2]
    exact List.mem_append.mpr (Or.inr (List.mem_append.mpr (Or.inl h1)))
  · rw [h2]
    simp

/-- Witness for C5 (amended) with one concrete handler. -/
theorem publish_dispatches_each_then_awaits_gather_witness :
    (∀ hd ∈ [(7 : Nat)], PubAction.createTask hd ∈ publishTrace [7]) ∧
    publishTrace [(7 : Nat)] =
      ([.appendHistory, .snapshotSubscribers] ++ [7].map .createTask) ++
        [.awaitAllTasks ([7] : List Nat).length] :=
  publish_dispatches_each_then_awaits_gather [7] (by decide)

/-- C4 counterexample: a zero-length binary frame violates
`0 < len ≤ max_chunk_bytes`, but `handle_audio_data` returns silently —
no error control message is sent to the client. -/
theorem empty_frame_silently_ignored_counterexample :
    (handleAudioData 1024 "s" 0 (createSession "s" [])).2.1 = [] := rfl

/-- C4 (amended): a zero-length frame is silently ignored (no message at
all), while an oversized frame gets a `too large` error message; in both
violating cases nothing is published, no acknowledgment is sent, and the
session state (including `chunk_counter`) is unchanged; a frame of
exactly `max_chunk_bytes` is accepted: it is acknowledged, published as
`audio_chunk_received`, and increments the counter by one. -/
theorem audio_frame_validation
    (maxSize : Nat) (sid : String) (len : Nat) (sm : SMState) :
    (len = 0 → handleAudioData maxSize sid len sm = (sm, [], [])) ∧
    (len > maxSize →
      handleAudioData maxSize sid len sm =
        (sm, [.errorMsg ("Audio chunk too large: " ++ toString len ++
            " bytes (max: " ++ toString maxSize ++ ")")], [])) ∧
    (∀ rec, 0 < len → len ≤ maxSize → sm.lookup sid = some rec →
      (handleAudioData maxSize sid len sm).2.1 =
        [.chunkReceived rec.chunkCounter len] ∧
      (handleAudioData maxSize sid len sm).2.2 =
        [{ name := "audio_chunk_received"
           data := .audioChunk sid rec.chunkCounter len 16000 1
           source := "websocket_handler"
           correlationId := some (chunkKey sid rec.chunkCounter) }] ∧
      (handleAudioData maxSize sid len sm).1.lookup sid =
        some { rec with chunkCounter := rec.chunkCounter + 1,
                        totalChunks := rec.totalChunks + 1,
                        totalAudioBytes := rec.totalAudioBytes + len }) := by
  refine ⟨?_, ?_, ?_⟩
  · intro h
    simp [handleAudioData, h]
  · intro h
    have h0 : ¬ (len = 0) := by omega
    simp [handleAudioData, h0, h]
  · intro rec hpos hle hlook
    have h0 : ¬ (len = 0) := by omega
    have hgt : ¬ (len > maxSize) := by omega
    have hnext : getNextChunkId sid sm =
        .ok (rec.chunkCounter,
             smUpdate sid
               (fun r => { r with chunkCounter := r.chunkCounter + 1,
                                  totalChunks := r.totalChunks + 1 }) sm) := by
      simp [getNextChunkId, hlook]
    refine ⟨?_, ?_, ?_⟩
    · simp [handleAudioData, h0, hgt, hnext]
    · simp [handleAudioData, h0, hgt, hnext]
    · simp [handleAudioData, h0, hgt, hnext, lookup_smUpdate, hlook]

/-- Witness for C4 (amended) with `max_chunk_bytes = 4`: a zero-length
frame, a 9-byte frame, and a boundary 4-byte frame. -/
theorem audio_frame_validation_witness :
    (handleAudioData 4 "s" 0 (createSession "s" []) =
      (createSession "s" [], [], [])) ∧
    (handleAudioData 4 "s" 9 (createSession "s" []) =
      (createSession "s" [],
       [.errorMsg ("Audio chunk too large: " ++ toString 9 ++
          " bytes (max: " ++ toString 4 ++ ")")], [])) ∧
    ((handleAudioData 4 "s" 4 (createSession "s" [])).2.1 =
      [.chunkReceived 0 4] ∧
     (handleAudioData 4 "s" 4 (createSession "s" [])).2.2 =
      [{ name := "audio_chunk_received"
         data := .audioChunk "s" 0 4 16000 1
         source := "websocket_handler"
         correlationId := some (chunkKey "s" 0) }] ∧
     (handleAudioData 4 "s" 4 (createSession "s" [])).1.lookup "s" =
      some { chunkCounter := 1, totalChunks := 1,
             totalAudioBytes := 4, statusActive := true }) :=
  ⟨(audio_frame_validation 4 "s" 0 (createSession "s" [])).1 rfl,
   (audio_frame_validation 4 "s" 9 (createSession "s" [])).2.1 (by decide),
   (audio_frame_validation 4 "s" 4 (createSession "s" [])).2.2
     { chunkCounter := 0, totalChunks := 0,
       totalAudioBytes := 0, statusActive := true }
     (by decide) (by decide) (by decide)⟩

/-- C3: for every admitted chunk, each worker publishes exactly one
result event on its output topic (`vad_completed` / `asr_completed` /
`diarization_completed`) whether the analyzer call succeeds, raises an
exception, or exceeds the `chunk_timeout` deadline. -/
theorem admitted_chunk_publishes_exactly_one_result :
    (∀ (s : String) (c len rate : Nat) (o : AnalyzerOutcome) (pms : Rat)
        (corr : Option String),
      ((vadProcessAudioChunk s c len rate o pms corr).filter
        (fun ev => ev.name == "vad_completed")).length = 1) ∧
    (∀ (s : String) (c : Nat) (o : AnalyzerOutcome) (pms ct : Rat)
        (corr : Option String) (fresh : String),
      ((asrProcessSpeech s c o pms ct corr fresh).filter
        (fun ev => ev.name == "asr_completed")).length = 1) ∧
    (∀ (s : String) (c : Nat) (o : AnalyzerOutcome) (pms : Rat)
        (corr : Option String),
      ((diarizationProcessSpeechChunk s c o pms corr).filter
        (fun ev => ev.name == "diarization_completed")).length = 1) := by
  refine ⟨?_, ?_, ?_⟩
  · intro s c len rate o pms corr
    cases o with
    | success d =>
        cases hs : jGetBool d "is_speech" with
        | false => simp [vadProcessAudioChunk, hs]
        | true => simp [vadProcessAudioChunk, hs]
    | failure msg => rfl
    | timeout => rfl
  · intro s c o pms ct corr fresh
    cases o <;> rfl
  · intro s c o pms corr
    cases o <;> rfl

lemma lookup_deleteKey {α : Type} (k : String) :
    ∀ m : List (String × α), (deleteKey k m).lookup k = none := by
  intro m
  induction m with
  | nil => rfl
  | cons kv rest ih =>
      by_cases hk : kv.1 = k
      · simpa [deleteKey, List.filter_cons, hk] using ih
      · have hb : (kv.1 != k) = true := by simpa [bne_iff_ne] using hk
        have hb2 : (k == kv.1) = false := by
          simp only [beq_eq_false_iff_ne, ne_eq]
          exact fun h => hk h.symm
        simpa [deleteKey, List.filter_cons, hb, List.lookup, hb2] using ih

lemma lookup_updateKey {α : Type} (k : String) (v : α) :
    ∀ m : List (String × α),
      (updateKey k v m).lookup k = (m.lookup k).map (fun _ => v) := by
  intro m
  induction m with
  | nil => rfl
  | cons kv rest ih =>
      by_cases hk : kv.1 = k
      · have hb : (k == kv.1) = true := by simp [beq_iff_eq, hk.symm]
        simp only [updateKey, List.map]
        rw [if_pos hk]
        simp [List.lookup, hb]
      · have hb2 : (k == kv.1) = false := by
          simp only [beq_eq_false_iff_ne, ne_eq]
          exact fun h => hk h.symm
        simp only [updateKey, List.map] at ih ⊢
        rw [if_neg hk]
        simp only [List.lookup, hb2]
        exact ih

lemma lookup_append_single {α : Type} (k : String) (v : α) :
    ∀ m : List (String × α), m.lookup k = none →
      (m ++ [(k, v)]).lookup k = some v := by
  intro m
  induction m with
  | nil => intro h; simp [List.lookup]
  | cons kv rest ih =>
      intro h
      cases hbe : (k == kv.1) with
      | true => simp [List.lookup, hbe] at h
      | false =>
          have hrest : rest.lookup k = none := by
            simpa [List.lookup, hbe] using h
          simpa [List.lookup, hbe] using ih hrest

lemma addResult_completed_of_mem {R : Type} (e : ChunkAggregationState R)
    (c : Component) (r : R) (h : c ∈ e.completedComponents) :
    (e.addResult c r).completedComponents = e.completedComponents := by
  cases c <;> simp [ChunkAggregationState.addResult, h]

lemma addResult_mem {R : Type} (e : ChunkAggregationState R)
    (c : Component) (r : R) :
    c ∈ (e.addResult c r).completedComponents := by
  cases c <;> simp [ChunkAggregationState.addResult] <;> split_ifs with h <;>
    simp [h]

lemma addResult_isComplete_of_mem {R : Type} (e : ChunkAggregationState R)
    (c : Component) (r : R) (h : c ∈ e.completedComponents) :
    (e.addResult c r).isComplete = e.isComplete := by
  have hc := addResult_completed_of_mem e c r h
  simp [ChunkAggregationState.isComplete, hc]

lemma addResult_resultFor_self {R : Type} (e : ChunkAggregationState R)
    (c : Component) (r : R) :
    (e.addResult c r).resultFor c = some r := by
  cases c <;> simp [ChunkAggregationState.addResult] <;> split_ifs <;> rfl

lemma publishChunkComplete_fst_chunkStates {R : Type} (k : String)
    (e : ChunkAggregationState R) (tmo : Bool) (now : Nat) (st : AggState R) :
    (publishChunkComplete k e tmo now st).1.chunkStates =
      deleteKey k st.chunkStates := by
  simp only [publishChunkComplete]
  split_ifs <;> rfl

lemma publishChunkComplete_snd {R : Type} (k : String)
    (e : ChunkAggregationState R) (tmo : Bool) (now : Nat) (st : AggState R) :
    (publishChunkComplete k e tmo now st).2 = mkAggOutput now tmo e := rfl

lemma handle_outputs_length_le_one {R : Type} (comp : Component) (s : String)
    (k : Nat) (r : R) (now : Nat) (st : AggState R) :
    (handleComponentCompleted comp s k r now st).2.length ≤ 1 := by
  by_cases hs : s = ""
  · simp [handleComponentCompleted, hs]
  · simp only [handleComponentCompleted]
    rw [if_neg hs]
    cases hl : st.chunkStates.lookup (chunkKey s k) with
    | none =>
        dsimp only
        split_ifs <;> simp
    | some e =>
        dsimp only
        split_ifs <;> simp

lemma handle_lookup_char {R : Type} (comp : Component) (s : String) (k : Nat)
    (r : R) (now : Nat) (st : AggState R) (e₁ : ChunkAggregationState R)
    (hs : ¬ s = "")
    (h : (handleComponentCompleted comp s k r now st).1.chunkStates.lookup
        (chunkKey s k) = some e₁) :
    comp ∈ e₁.completedComponents ∧ e₁.isComplete = false := by
  simp only [handleComponentCompleted] at h
  rw [if_neg hs] at h
  cases hl : st.chunkStates.lookup (chunkKey s k) with
  | some e =>
      rw [hl] at h
      dsimp only at h
      by_cases hc : (e.addResult comp r).isComplete
      · rw [if_pos hc] at h
        rw [publishChunkComplete_fst_chunkStates, lookup_deleteKey] at h
        exact absurd h (by simp)
      · rw [if_neg hc] at h
        simp only [lookup_updateKey, hl, Option.map_some',
          Option.some.injEq] at h
        subst h
        exact ⟨addResult_mem e comp r, by simpa using hc⟩
  | none =>
      rw [hl] at h
      dsimp only at h
      by_cases hc : ((freshEntry R s k now
          st.aggregationTimeout).addResult comp r).isComplete = true
      · rw [if_pos hc] at h
        rw [publishChunkComplete_fst_chunkStates, lookup_deleteKey] at h
        exact absurd h (by simp)
      · rw [if_neg hc] at h
        simp only [lookup_append_single (chunkKey s k) _ st.chunkStates hl,
          Option.some.injEq] at h
        subst h
        exact ⟨addResult_mem _ comp r, by simpa using hc⟩

lemma handle_duplicate_kind_no_output {R : Type} (comp : Component)
    (s : String) (k : Nat) (r₂ : R) (n₂ : Nat) (st₁ : AggState R)
    (e₁ : ChunkAggregationState R) (hs : ¬ s = "")
    (hl : st₁.chunkStates.lookup (chunkKey s k) = some e₁)
    (hmem : comp ∈ e₁.completedComponents)
    (hnc : e₁.isComplete = false) :
    (handleComponentCompleted comp s k r₂ n₂ st₁).2 = [] ∧
    (handleComponentCompleted comp s k r₂ n₂ st₁).1.chunkStates.lookup
        (chunkKey s k) = some (e₁.addResult comp r₂) := by
  have hc : (e₁.addResult comp r₂).isComplete = false := by
    rw [addResult_isComplete_of_mem _ _ _ hmem]
    exact hnc
  have hc' : ¬ (e₁.addResult comp r₂).isComplete = true := by simp [hc]
  constructor
  · simp only [handleComponentCompleted]
    rw [if_neg hs, hl]
    dsimp only
    rw [if_neg hc']
  · simp only [handleComponentCompleted]
    rw [if_neg hs, hl]
    dsimp only
    rw [if_neg hc']
    simp [lookup_updateKey, hl]

lemma runAggEvents_concat {R : Type} (l : List (InEvent R)) (e : InEvent R) :
    ∀ st : AggState R,
      (runAggEvents (l ++ [e]) st).2 =
        (runAggEvents l st).2 ++
          (handleComponentCompleted e.comp e.sessionId e.chunkId e.res e.now
            (runAggEvents l st).1).2 := by
  induction l with
  | nil => intro st; simp [runAggEvents]
  | cons x xs ih => intro st; simp [runAggEvents, ih, List.append_assoc]

/-- C2 counterexample: six result events for the pair `("s", 0)` — each
kind delivered twice — make the aggregator publish two completion events
for that pair: the first close deletes the entry, so the late duplicates
re-create it and close it a second time. -/
theorem second_completion_after_close_counterexample :
    ((runAggEvents
        [⟨.vad, "s", 0, 1, 0⟩, ⟨.asr, "s", 0, 2, 0⟩,
         ⟨.diarization, "s", 0, 3, 0⟩, ⟨.vad, "s", 0, 4, 0⟩,
         ⟨.asr, "s", 0, 5, 0⟩, ⟨.diarization, "s", 0, 6, 0⟩]
        (initAggState Nat 30)).2.length = 2) ∧
    (∀ o ∈ (runAggEvents
        [⟨.vad, "s", 0, 1, 0⟩, ⟨.asr, "s", 0, 2, 0⟩,
         ⟨.diarization, "s", 0, 3, 0⟩, ⟨.vad, "s", 0, 4, 0⟩,
         ⟨.asr, "s", 0, 5, 0⟩, ⟨.diarization, "s", 0, 6, 0⟩]
        (initAggState Nat 30)).2,
      o.sessionId = "s" ∧ o.chunkId = 0) := by
  constructor
  · rfl
  · decide

/-- C2 (amended): completion is single-shot while the pair's entry lives:
along any event sequence in which every proper prefix has produced no
completion, at most one completion event is emitted (each single handler
call emits at most one); and while the entry stays open, a duplicate kind
overwrites the stored result (last write wins), emits no completion
event, and leaves the completed-kind set unchanged.  Once a pair is
closed its entry is deleted, so a result arriving after the close
re-creates the entry and can yield a second completion event for the same
pair (see the counterexample). -/
theorem chunk_completion_single_shot_and_last_write_wins :
    (∀ (R : Type) (evs : List (InEvent R)) (st : AggState R),
      (∀ p, p <+: evs → p ≠ evs → (runAggEvents p st).2 = []) →
      (runAggEvents evs st).2.length ≤ 1) ∧
    (∀ (R : Type) (comp : Component) (s : String) (k : Nat) (r₁ r₂ : R)
        (n₁ n₂ : Nat) (st : AggState R) (e₁ : ChunkAggregationState R),
      s ≠ "" →
      (handleComponentCompleted comp s k r₁ n₁ st).1.chunkStates.lookup
          (chunkKey s k) = some e₁ →
      (handleComponentCompleted comp s k r₂ n₂
          (handleComponentCompleted comp s k r₁ n₁ st).1).2 = [] ∧
      (((handleComponentCompleted comp s k r₂ n₂
          (handleComponentCompleted comp s k r₁ n₁ st).1).1.chunkStates.lookup
          (chunkKey s k)).map (fun e => e.resultFor comp)) = some (some r₂) ∧
      (((handleComponentCompleted comp s k r₂ n₂
          (handleComponentCompleted comp s k r₁ n₁ st).1).1.chunkStates.lookup
          (chunkKey s k)).map (fun e => e.completedComponents)) =
        some e₁.completedComponents) := by
  constructor
  · intro R evs st h
    rcases List.eq_nil_or_concat evs with rfl | ⟨p, e, rfl⟩
    · simp [runAggEvents]
    · have hpre : p <+: p.concat e := by
        simp [List.concat_eq_append, List.prefix_append]
      have hne : p ≠ p.concat e := by
        intro hcontra
        have := congrArg List.length hcontra
        simp [List.concat_eq_append] at this
      have hp : (runAggEvents p st).2 = [] := h p hpre hne
      rw [List.concat_eq_append, runAggEvents_concat, hp]
      simpa using handle_outputs_length_le_one e.comp e.sessionId e.chunkId
        e.res e.now (runAggEvents p st).1
  · intro R comp s k r₁ r₂ n₁ n₂ st e₁ hs hl
    have hchar := handle_lookup_char comp s k r₁ n₁ st e₁ hs hl
    have hdup := handle_duplicate_kind_no_output comp s k r₂ n₂
      (handleComponentCompleted comp s k r₁ n₁ st).1 e₁ hs hl hchar.1 hchar.2
    refine ⟨hdup.1, ?_, ?_⟩
    · rw [hdup.2]
      simp [addResult_resultFor_self]
    · rw [hdup.2]
      simp [addResult_completed_of_mem _ _ _ hchar.1]

/-- Witness for C2 (amended): a two-event sequence `[vad, vad]` for one
pair (completion only possible at the very end, so every proper prefix is
completion-free), and a concrete duplicate-kind second call. -/
theorem chunk_completion_single_shot_witness :
    ((runAggEvents [⟨.vad, "s", 0, 1, 0⟩, ⟨.vad, "s", 0, 2, 0⟩]
        (initAggState Nat 30)).2.length ≤ 1) ∧
    ((handleComponentCompleted .vad "s" 0 (2 : Nat) 0
        (handleComponentCompleted .vad "s" 0 (1 : Nat) 0
          (initAggState Nat 30)).1).2 = [] ∧
     (((handleComponentCompleted .vad "s" 0 (2 : Nat) 0
        (handleComponentCompleted .vad "s" 0 (1 : Nat) 0
          (initAggState Nat 30)).1).1.chunkStates.lookup
        (chunkKey "s" 0)).map (fun e => e.resultFor .vad)) = some (some 2) ∧
     (((handleComponentCompleted .vad "s" 0 (2 : Nat) 0
        (handleComponentCompleted .vad "s" 0 (1 : Nat) 0
          (initAggState Nat 30)).1).1.chunkStates.lookup
        (chunkKey "s" 0)).map (fun e => e.completedComponents)) =
      some [.vad]) :=
  ⟨chunk_completion_single_shot_and_last_write_wins.1 Nat
      [⟨.vad, "s", 0, 1, 0⟩, ⟨.vad, "s", 0, 2, 0⟩] (initAggState Nat 30)
      (by
        intro p hp hne
        have heq := List.prefix_iff_eq_take.mp hp
        have h2 : p.length ≤ 2 := by simpa using hp.length_le
        have hcase : p.length = 0 ∨ p.length = 1 ∨ p.length = 2 := by omega
        rcases hcase with h0 | h1 | hfull
        · have hp0 : p = [] := List.length_eq_zero.mp h0
          subst hp0
          rfl
        · rw [h1] at heq
          simp only [List.take] at heq
          subst heq
          rfl
        · rw [hfull] at heq
          simp only [List.take] at heq
          exact absurd heq hne),
   chunk_completion_single_shot_and_last_write_wins.2 Nat .vad "s" 0 1 2 0 0
      (initAggState Nat 30)
      ⟨"s", 0, 0, 30, some 1, none, none, [.vad]⟩
      (by decide) (by decide)⟩

lemma flushEntries_snd {R : Type} (tmo : Bool) (now : Nat) :
    ∀ (l : List (String × ChunkAggregationState R)) (st : AggState R),
      (flushEntries tmo now l st).2 =
        l.map (fun kv => mkAggOutput now tmo kv.2) := by
  intro l
  induction l with
  | nil => intro st; rfl
  | cons kv rest ih =>
      intro st
      simp [flushEntries, publishChunkComplete_snd, ih]

lemma flushEntries_fst_chunkStates {R : Type} (tmo : Bool) (now : Nat) :
    ∀ (l : List (String × ChunkAggregationState R)) (st : AggState R),
      (flushEntries tmo now l st).1.chunkStates =
        l.foldl (fun m kv => deleteKey kv.1 m) st.chunkStates := by
  intro l
  induction l with
  | nil => intro st; rfl
  | cons kv rest ih =>
      intro st
      simp only [flushEntries, List.foldl]
      rw [ih]
      rw [publishChunkComplete_fst_chunkStates]

lemma foldl_deleteKey_nil {α : Type} :
    ∀ (l : List (String × α)) (m : List (String × α)),
      (∀ kv ∈ m, kv.1 ∈ l.map Prod.fst) →
      l.foldl (fun acc kv => deleteKey kv.1 acc) m = [] := by
  intro l
  induction l with
  | nil =>
      intro m h
      cases m with
      | nil => rfl
      | cons kv rest => exact absurd (h kv (by simp)) (by simp)
  | cons a l ih =>
      intro m h
      simp only [List.foldl]
      apply ih
      intro kv hkv
      have hkv' : kv ∈ m ∧ (kv.1 != a.1) = true := List.mem_filter.mp hkv
      have hin : kv.1 ∈ (a :: l).map Prod.fst := h kv hkv'.1
      simp only [List.map, List.mem_cons] at hin
      rcases hin with h1 | h1
      · exact absurd h1 (by simpa [bne_iff_ne] using hkv'.2)
      · simpa using h1

/-- C8: when `stop()` runs on an aggregator that is still running, every
remaining open entry is closed and published exactly once — the output
list is exactly one completion payload per open entry — each with
`is_timeout = false` (the shutdown flush is a Partial close, not a
Timeout), with `missing_components` listing exactly the kinds that had
not produced a result, and the entry table is left empty: no in-flight
chunk is silently dropped at shutdown. -/
theorem stop_flushes_all_open_entries {R : Type} (st : AggState R)
    (now : Nat) (hrun : st.isRunning = true) :
    (aggStop now st).2 =
      st.chunkStates.map (fun kv => mkAggOutput now false kv.2) ∧
    (∀ o ∈ (aggStop now st).2, o.isTimeout = false ∧
      o.missingComponents = expectedComponents.filter
        (fun c => decide (c ∉ o.completedComponents))) ∧
    (aggStop now st).1.chunkStates = [] := by
  have hstop : aggStop now st =
      flushRemainingChunks now { st with isRunning := false } := by
    simp [aggStop, hrun]
  have houts : (aggStop now st).2 =
      st.chunkStates.map (fun kv => mkAggOutput now false kv.2) := by
    rw [hstop]
    exact flushEntries_snd false now st.chunkStates _
  refine ⟨houts, ?_, ?_⟩
  · intro o ho
    rw [houts] at ho
    obtain ⟨kv, _, rfl⟩ := List.mem_map.mp ho
    exact ⟨rfl, rfl⟩
  · rw [hstop]
    show (flushEntries false now st.chunkStates _).1.chunkStates = []
    rw [flushEntries_fst_chunkStates]
    exact foldl_deleteKey_nil st.chunkStates st.chunkStates
      (fun kv hkv => List.mem_map_of_mem Prod.fst hkv)

/-- Witness for C8: stopping a running aggregator holding one open entry
(only VAD received) publishes exactly that entry with
`is_timeout = false` and `missing = [asr, diarization]`, and empties the
table. -/
theorem stop_flushes_all_open_entries_witness :
    ((aggStop 7 ({ aggregationTimeout := 30
                   chunkStates := [("s_0", ⟨"s", 0, 2, 30, some 1, none, none, [.vad]⟩)]
                   isRunning := true } : AggState Nat)).2 =
      [mkAggOutput 7 false ⟨"s", 0, 2, 30, some 1, none, none, [.vad]⟩] ∧
     (∀ o ∈ (aggStop 7 ({ aggregationTimeout := 30
                          chunkStates := [("s_0", ⟨"s", 0, 2, 30, some 1, none, none, [.vad]⟩)]
                          isRunning := true } : AggState Nat)).2,
       o.isTimeout = false ∧
       o.missingComponents = expectedComponents.filter
         (fun c => decide (c ∉ o.completedComponents))) ∧
     (aggStop 7 ({ aggregationTimeout := 30
                   chunkStates := [("s_0", ⟨"s", 0, 2, 30, some 1, none, none, [.vad]⟩)]
                   isRunning := true } : AggState Nat)).1.chunkStates
       = []) :=
  stop_flushes_all_open_entries
    ({ aggregationTimeout := 30
       chunkStates := [("s_0", ⟨"s", 0, 2, 30, some 1, none, none, [.vad]⟩)]
       isRunning := true } : AggState Nat) 7 rfl

/-- C1: evaluation of the wired pipeline at the claim's failing input — a
single accepted 500-byte chunk, below the mock VAD's 1024-byte speech
threshold.  VAD publishes no `speech_detected`, so ASR and diarization
(which subscribe only to `speech_detected`) never produce a result; the
aggregator's entry for the pair holds only the VAD result and is closed
by the deadline sweep, and the one message delivered to the client
carries `is_complete = false`, `is_timeout = true` and
`missing = [asr, diarization]` — not the `is_complete = true` completion
the claim (and the spec's scenario 2) requires. -/
theorem non_speech_chunk_never_completes :
    ((runOneChunkPipeline 65536 500 "s" [] [] 30 31).workerEvents.filter
       (fun ev => ev.name == "asr_completed" ||
                  ev.name == "diarization_completed")).length = 0 ∧
    (runOneChunkPipeline 65536 500 "s" [] [] 30 31).aggOutputs.length = 1 ∧
    ((runOneChunkPipeline 65536 500 "s" [] [] 30 31).aggOutputs.head?.map
      (fun o => (o.isComplete, o.isTimeout, o.completedComponents,
                 o.missingComponents, o.asrResult.isNone,
                 o.diarizationResult.isNone))) =
      some (false, true, [.vad], [.asr, .diarization], true, true) ∧
    (((runOneChunkPipeline 65536 500 "s" [] [] 30 31).aggOutputs.head?.bind
      (fun o => o.vadResult)).map
        (fun pr => jGetBool pr.result "is_speech")) = some false ∧
    ((runOneChunkPipeline 65536 500 "s" [] [] 30 31).clientMsgs.filterMap
      (fun m => match m with
        | .processingComplete o => some (o.chunkId, o.isComplete, o.isTimeout)
        | _ => none)) = [(0, false, true)] ∧
    ((runOneChunkPipeline 65536 500 "s" [] [] 30 31).clientMsgs.filterMap
      (fun m => match m with
        | .chunkReceived c sz => some (c, sz)
        | _ => none)) = [(0, 500)] := by
  refine ⟨rfl, rfl, rfl, rfl, rfl, rfl⟩

/-- Sanity check of the same pipeline composition on a speech chunk
(2000 bytes, above the mock threshold): all three results arrive and the
chunk completes by aggregation, not by the sweeper. -/
theorem pipeline_happy_path_completes :
    (runOneChunkPipeline 65536 2000 "s"
        [("text", .s "T2000"), ("confidence", .q 1)]
        [("speakers", .arr []), ("segments", .arr [])] 30 31).aggOutputs.length
      = 1 ∧
    ((runOneChunkPipeline 65536 2000 "s"
        [("text", .s "T2000"), ("confidence", .q 1)]
        [("speakers", .arr []), ("segments", .arr [])] 30 31).aggOutputs.head?.map
      (fun o => (o.isComplete, o.isTimeout, o.missingComponents))) =
      some (true, false, []) := ⟨rfl, rfl⟩

end SpeechService
